import Mathlib

/-!
Verification development for the bud plugin host.

Shallow embedding of:
- the `ProviderValue` ADT and `wasmtime::Val` marshalling
  (crates/wasm-provider/src/lib.rs),
- the `WasmProvider` load / invoke operations,
- the manifest loaders (crates/config/src/plugin.rs),
- the `PluginManager` operations (crates/core/src/plugin/manager.rs),
over an explicit filesystem model.

Machine integers are passed through untouched by every modelled operation,
so `I32`/`I64` payloads are modelled as `Int`.  Rust `f32`/`f64` values are
only ever transported via `to_bits`/`from_bits` (a total bijection with the
32- and 64-bit patterns), so they are modelled by their IEEE-754 bit patterns;
bit-for-bit equality (including NaN payloads) is then plain equality.
-/

set_option maxHeartbeats 1000000
set_option linter.unusedSectionVars false

namespace Bud

/-- A Rust `f32`, represented by its IEEE-754 binary32 bit pattern.
`to_bits` and `from_bits` are mutually inverse total bijections in Rust,
which this representation captures exactly. -/
structure RustF32 where
  bits : Nat
deriving DecidableEq, Repr

def RustF32.to_bits (f : RustF32) : Nat := f.bits

def RustF32.from_bits (b : Nat) : RustF32 := ⟨b⟩

/-- A Rust `f64`, represented by its IEEE-754 binary64 bit pattern. -/
structure RustF64 where
  bits : Nat
deriving DecidableEq, Repr

def RustF64.to_bits (f : RustF64) : Nat := f.bits

def RustF64.from_bits (b : Nat) : RustF64 := ⟨b⟩

/-- `shared_types::ProviderValue` (crates/shared-types/src/provider.rs). -/
inductive ProviderValue where
  | Null : ProviderValue
  | Bool (b : Bool) : ProviderValue
  | I32 (i : Int) : ProviderValue
  | I64 (i : Int) : ProviderValue
  | F32 (f : RustF32) : ProviderValue
  | F64 (f : RustF64) : ProviderValue
  | String (s : String) : ProviderValue
  | Array (elems : List ProviderValue) : ProviderValue
  | Object (fields : List (String × ProviderValue)) : ProviderValue
deriving Repr

/-- `wasmtime::Val`: `F32`/`F64` carry raw bit patterns (`u32`/`u64`),
exactly as in wasmtime.  The reference variants stand for the
non-numeric, non-V128 values a future engine could produce. -/
inductive Val where
  | I32 (i : Int) : Val
  | I64 (i : Int) : Val
  | F32 (bits : Nat) : Val
  | F64 (bits : Nat) : Val
  | V128 (bits : Nat) : Val
  | FuncRef : Val
  | ExternRef : Val
deriving DecidableEq, Repr

/-- `wasmtime::ValType` (result/param types of an exported function). -/
inductive ValType where
  | i32 : ValType
  | i64 : ValType
  | f32 : ValType
  | f64 : ValType
  | v128 : ValType
  | funcref : ValType
  | externref : ValType
deriving DecidableEq, Repr

/-- `shared_types::ProviderError` (crates/shared-types/src/provider.rs). -/
inductive ProviderError where
  | InitFailed : ProviderError
  | LoadFailed (msg : String) : ProviderError
  | InjectionFailed (msg : String) : ProviderError
  | InvocationFailed (msg : String) : ProviderError
  | UnloadFailed (msg : String) : ProviderError
  | PermissionDenied (msg : String) : ProviderError
deriving DecidableEq, Repr

/-- The `Display` rendering of `ProviderError` produced by its
`thiserror` attributes (note that `LoadFailed` drops its payload). -/
def providerErrorToString : ProviderError → String
  | .InitFailed => "Init failed"
  | .LoadFailed _ => "Load failed"
  | .InjectionFailed m => "Function injection failed: " ++ m
  | .InvocationFailed m => "Function invocation failed: " ++ m
  | .UnloadFailed m => "Instance unload failed: " ++ m
  | .PermissionDenied m => "Permission denied: " ++ m

/-- Whether a `ProviderValue` is one of the four WASM-native numeric
variants that may cross the host/guest boundary. -/
def valueIsNumeric : ProviderValue → Bool
  | .I32 _ | .I64 _ | .F32 _ | .F64 _ => true
  | _ => false

/-- `provider_value_to_val` (crates/wasm-provider/src/lib.rs, lines 64-86):
host→guest marshalling.  Floats travel as their bit patterns; all
non-numeric variants are rejected with `InvocationFailed` carrying the
source error messages verbatim. -/
def provider_value_to_val : ProviderValue → Except ProviderError Val
  | .I32 i => .ok (.I32 i)
  | .I64 i => .ok (.I64 i)
  | .F32 f => .ok (.F32 f.to_bits)
  | .F64 f => .ok (.F64 f.to_bits)
  | .Null => .error (.InvocationFailed
      "Null type not supported for WASM calls. Use I32(0) if a zero value is needed.")
  | .Bool _ => .error (.InvocationFailed
      "Bool type not supported for WASM calls. Convert to I32(0) for false or I32(1) for true.")
  | .String _ | .Array _ | .Object _ => .error (.InvocationFailed
      "Complex types (String, Array, Object) not supported for WASM calls.")

/-- `val_to_provider_value` (crates/wasm-provider/src/lib.rs, lines 92-110):
guest→host marshalling.  `V128` and reference values are rejected. -/
def val_to_provider_value : Val → Except ProviderError ProviderValue
  | .I32 i => .ok (.I32 i)
  | .I64 i => .ok (.I64 i)
  | .F32 bits => .ok (.F32 (RustF32.from_bits bits))
  | .F64 bits => .ok (.F64 (RustF64.from_bits bits))
  | .V128 _ => .error (.InvocationFailed
      "V128 type not supported. WASM functions should return basic numeric types only.")
  | v => .error (.InvocationFailed
      ("Unsupported WASM value type: " ++ reprStr v))

/-- Whether a declared WASM result type is one of the four numeric types
accepted by the pre-call signature check in `WasmProvider::invoke`. -/
def ValType.isNumeric : ValType → Bool
  | .i32 | .i64 | .f32 | .f64 => true
  | _ => false

/-- Debug rendering of a `ValType` as used in the unsupported-result
error message (`{:?}` in Rust). -/
def ValType.debugName : ValType → String
  | .i32 => "I32"
  | .i64 => "I64"
  | .f32 => "F32"
  | .f64 => "F64"
  | .v128 => "V128"
  | .funcref => "FuncRef"
  | .externref => "ExternRef"

/-- Whether a runtime value conforms to a declared value type
(the typing guarantee wasmtime maintains for call results). -/
def Val.matchesType : Val → ValType → Bool
  | .I32 _, .i32 => true
  | .I64 _, .i64 => true
  | .F32 _, .f32 => true
  | .F64 _, .f64 => true
  | .V128 _, .v128 => true
  | .FuncRef, .funcref => true
  | .ExternRef, .externref => true
  | _, _ => false

/-- `shared_types::config::PluginConfigData`
(crates/shared-types/src/config.rs): a validated plugin manifest. -/
structure PluginConfigData where
  name : String
  version : String
  description : String
  author : String
  permissions : List String
deriving DecidableEq, Repr

/-- `shared_types::config::ConfigData`: the root configuration. -/
structure ConfigData where
  name : String
  version : String
  description : String
deriving DecidableEq, Repr

/-- `shared_types::config::ConfigError`. -/
inductive ConfigError where
  | FileNotFound (path : String) : ConfigError
  | ParseError (msg : String) : ConfigError
  | ValidationError (msg : String) : ConfigError
  | IoError (msg : String) : ConfigError
deriving DecidableEq, Repr

/-- The `Display` rendering of `ConfigError` produced by its
`thiserror` attributes. -/
def configErrorToString : ConfigError → String
  | .FileNotFound p =>
      "Configuration file not found: " ++ p ++
      "\n\nPlease ensure config file exists in the project root directory."
  | .ParseError m => "Configuration parsing error: " ++ m
  | .ValidationError m => "Configuration validation failed:\n" ++ m
  | .IoError m => "File reading error: " ++ m

/-- `shared_types::plugin::PluginError`.  `InstallError` is constructed
by `PluginManager::install` in crates/core/src/plugin/manager.rs. -/
inductive PluginError where
  | InitError (msg : String) : PluginError
  | LoadError (msg : String) : PluginError
  | ProjectDirsError : PluginError
  | InvokeError (msg : String) : PluginError
  | IoError (msg : String) : PluginError
  | InstallError (msg : String) : PluginError
deriving DecidableEq, Repr

/-! ## Filesystem model

Absolute paths are lists of components.  The filesystem is a finite
association list from paths to nodes.  File contents are abstracted at
the granularity the repository reads them: a `plugin.json` either
parses-and-validates to a `PluginConfigData` or fails, and a wasm file
either compiles-and-instantiates to a set of exported functions or
fails.  (JSON parsing, schema validation, and the wasm compiler are
external crates, out of scope per spec section 1.) -/

/-- A filesystem path, as its list of components (absolute). -/
abbrev FsPath := List String

/-- Rust `Path::display()` for an absolute path. -/
def pathDisplay (p : FsPath) : String := "/" ++ String.intercalate "/" p

/-- An exported wasm function: its declared signature together with its
behaviour (`run` returns the result values, or a trap message).
wasmtime guarantees that a successful call returns exactly the declared
results; theorems state that typing guarantee explicitly where used. -/
structure WasmFunc where
  paramTypes : List ValType
  resultTypes : List ValType
  run : List Val → Except String (List Val)

/-- File contents, abstracted to what the repository observes of them. -/
inductive FileData where
  | manifest (m : PluginConfigData) : FileData
  | invalidManifest (msg : String) : FileData
  | wasmModule (exports : List (String × WasmFunc)) : FileData
  | badWasm (msg : String) : FileData
  | blob : FileData

/-- A filesystem node. -/
inductive Node where
  | dir : Node
  | file (data : FileData) : Node

/-- The filesystem: an association list from paths to nodes. -/
structure FS where
  nodes : List (FsPath × Node)

def FS.lookupNode (fs : FS) (p : FsPath) : Option Node :=
  fs.nodes.lookup p

/-- Rust `Path::exists()`. -/
def FS.pathExists (fs : FS) (p : FsPath) : Bool :=
  (fs.lookupNode p).isSome

/-- Rust `Path::is_dir()`. -/
def FS.isDirAt (fs : FS) (p : FsPath) : Bool :=
  match fs.lookupNode p with
  | some .dir => true
  | _ => false

/-- Rust `Path::is_file()`. -/
def FS.isFileAt (fs : FS) (p : FsPath) : Bool :=
  match fs.lookupNode p with
  | some (.file _) => true
  | _ => false

/-- The names returned by `read_dir` on `p`: the final components of the
nodes lying directly below `p`. -/
def FS.childNames (fs : FS) (p : FsPath) : List String :=
  fs.nodes.filterMap fun pr =>
    if pr.1.length = p.length + 1 && p.isPrefixOf pr.1 then pr.1.getLast? else none

/-- Well-formedness of a filesystem: node paths are distinct, and every
non-root node hangs below a directory. -/
@[reducible]
def FS.Wf (fs : FS) : Prop :=
  (fs.nodes.map Prod.fst).Nodup ∧
  ∀ pr ∈ fs.nodes, pr.1 ≠ [] → fs.isDirAt pr.1.dropLast = true

/-- Insert or overwrite a node. -/
def FS.setNode (fs : FS) (p : FsPath) (n : Node) : FS :=
  if fs.pathExists p then
    ⟨fs.nodes.map fun pr => if pr.1 = p then (p, n) else pr⟩
  else
    ⟨fs.nodes ++ [(p, n)]⟩

/-- `std::fs::create_dir_all`: create the directory and all parents;
fails if a prefix of the path exists as a file. -/
def FS.create_dir_all (fs : FS) (p : FsPath) : Except String FS :=
  if (List.range p.length).any (fun i => fs.isFileAt (p.take (i + 1))) then
    .error ("create_dir_all failed: a component of " ++ pathDisplay p ++ " is a file")
  else
    .ok ((List.range p.length).foldl (fun acc i => acc.setNode (p.take (i + 1)) .dir) fs)

/-- `utils::copy_dir_recursive` (crates/utils/src/lib.rs), by its
section-6 contract: create `dst`, then replicate every node strictly
below `src` at the corresponding path below `dst`, overwriting existing
destination entries. -/
def FS.copy_dir_recursive (fs : FS) (src dst : FsPath) : FS :=
  let sub := fs.nodes.filterMap fun pr =>
    if src.isPrefixOf pr.1 && decide (src.length < pr.1.length) then
      some (dst ++ pr.1.drop src.length, pr.2)
    else none
  sub.foldl (fun acc pr => acc.setNode pr.1 pr.2) (fs.setNode dst .dir)

/-! ## Association-list model of `HashMap`

`HashMap::insert` replaces the value of an existing key; iteration
order is unspecified, which the list order stands in for. -/

/-- `HashMap::insert` on the association-list model. -/
def insertReplace {α : Type} (m : List (String × α)) (k : String) (v : α) :
    List (String × α) :=
  if (m.lookup k).isSome then
    m.map fun pr => if pr.1 = k then (k, v) else pr
  else
    m ++ [(k, v)]

/-! ## WasmProvider (crates/wasm-provider/src/lib.rs) -/

/-- `WasmInstance`: the shared engine plus WASI-populated linker.  Both
are opaque engine state; nothing in the claims inspects them. -/
structure WasmInstance where
  mk ::
deriving DecidableEq, Repr

/-- `PluginInstance`: the per-plugin isolated store and instantiated
module, abstracted to the plugin name and its exported functions. -/
structure PluginInstance where
  module_name : String
  funcs : List (String × WasmFunc)

/-- The state of a `WasmProvider`: the once-set shared instance slot and
the plugin map (the mutex-guarded `HashMap<String, PluginInstance>`). -/
structure WasmProviderState where
  instanceSlot : Option WasmInstance
  plugins : List (String × PluginInstance)

/-- `WasmProvider::new`. -/
def WasmProviderState.new : WasmProviderState := ⟨none, []⟩

/-- `WasmProvider::init` (lines 130-166): builds the engine and the
WASI-populated linker and stores them in the shared slot.  Engine and
linker construction cannot fail in the model. -/
def WasmProviderState.init (prov : WasmProviderState) :
    Except ProviderError WasmInstance × WasmProviderState :=
  (.ok ⟨⟩, { prov with instanceSlot := some ⟨⟩ })

/-- `WasmProvider::load` (lines 168-261): check `plugin_dir/main.wasm`
is a file, derive the plugin name from the final path component,
require the initialized instance, compile and instantiate the module,
and register the `PluginInstance` (replacing any previous one).
Compilation and instantiation (external wasmtime crate) are abstracted
into the `FileData` of the wasm file; their two distinct failure
messages are collapsed into the compile-failure shape, which no claim
distinguishes. -/
def WasmProviderState.load (prov : WasmProviderState) (fs : FS) (path : FsPath) :
    Except ProviderError Unit × WasmProviderState :=
  let plugin_dir := path
  let wasm_file := plugin_dir ++ ["main.wasm"]
  if fs.isFileAt wasm_file = false then
    (.error (.LoadFailed ("main.wasm not found: " ++ pathDisplay wasm_file)), prov)
  else
    match plugin_dir.getLast? with
    | none =>
        (.error (.LoadFailed ("Invalid plugin path: " ++ pathDisplay plugin_dir)), prov)
    | some plugin_name =>
        match prov.instanceSlot with
        | none =>
            (.error (.LoadFailed "Provider not initialized. Call init() first."), prov)
        | some _ =>
            match fs.lookupNode wasm_file with
            | some (.file (.wasmModule exports)) =>
                (.ok (),
                 { prov with
                     plugins := insertReplace prov.plugins plugin_name
                       ⟨plugin_name, exports⟩ })
            | some (.file (.badWasm msg)) =>
                (.error (.LoadFailed
                  ("Failed to compile plugin \x27" ++ plugin_name ++ "\x27: " ++ msg)), prov)
            | _ =>
                (.error (.LoadFailed
                  ("Failed to compile plugin \x27" ++ plugin_name ++
                   "\x27: not a WebAssembly module")), prov)

/-- `args.iter().map(provider_value_to_val).collect::<Result<Vec<Val>, _>>()`:
marshal every argument, stopping at the first failure. -/
def marshalArgs : List ProviderValue → Except ProviderError (List Val)
  | [] => .ok []
  | a :: l =>
      match provider_value_to_val a with
      | .error e => .error e
      | .ok w =>
          match marshalArgs l with
          | .error e => .error e
          | .ok ws => .ok (w :: ws)

/-- `results.iter().map(val_to_provider_value).collect::<Result<Vec<_>, _>>()`:
convert every result value back, stopping at the first failure. -/
def convertVals : List Val → Except ProviderError (List ProviderValue)
  | [] => .ok []
  | v :: l =>
      match val_to_provider_value v with
      | .error e => .error e
      | .ok pv =>
          match convertVals l with
          | .error e => .error e
          | .ok pvs => .ok (pv :: pvs)

/-- The outcome of `WasmProvider::invoke`, together with the observable
fact of whether the guest function was entered (`func.call` reached) —
the spec's "side-effect counter in the guest". -/
structure InvokeOutput where
  result : Except ProviderError ProviderValue
  guestEntered : Bool
deriving Repr

/-- `WasmProvider::invoke` (lines 275-365): resolve the plugin, resolve
the exported function, marshal the arguments, validate every declared
result type before the call, call, and marshal the results back
(`0 → Null`, `1 → the value`, `n → Array` in declaration order).
The zero-filled result buffer of the source is overwritten by the call;
the model takes the call's returned values as the post-call buffer,
relying on wasmtime's guarantee that a successful call fills the buffer
with exactly the declared results. -/
def WasmProviderState.invoke (prov : WasmProviderState)
    (plugin_name function : String) (args : List ProviderValue) : InvokeOutput :=
  match prov.plugins.lookup plugin_name with
  | none =>
      ⟨.error (.LoadFailed ("Plugin \x27" ++ plugin_name ++ "\x27 not found")), false⟩
  | some plugin =>
      match plugin.funcs.lookup function with
      | none =>
          ⟨.error (.InvocationFailed
            ("Function \x27" ++ function ++ "\x27 not found in plugin \x27" ++
             plugin_name ++ "\x27")), false⟩
      | some func =>
          match marshalArgs args with
          | .error e => ⟨.error e, false⟩
          | .ok wasm_args =>
              match func.resultTypes.find? (fun t => !t.isNumeric) with
              | some unsupported =>
                  ⟨.error (.InvocationFailed
                    ("WASM function \x27" ++ function ++ "\x27 in plugin \x27" ++
                     plugin_name ++ "\x27 returns unsupported type: " ++
                     unsupported.debugName ++
                     ". Only I32, I64, F32, F64 are supported.")), false⟩
              | none =>
                  match func.run wasm_args with
                  | .error e =>
                      ⟨.error (.InvocationFailed
                        ("Failed to call function \x27" ++ function ++
                         "\x27 in plugin \x27" ++ plugin_name ++ "\x27: " ++ e)), true⟩
                  | .ok results =>
                      match results with
                      | [] => ⟨.ok .Null, true⟩
                      | [v] => ⟨val_to_provider_value v, true⟩
                      | vs =>
                          match convertVals vs with
                          | .error e => ⟨.error e, true⟩
                          | .ok converted => ⟨.ok (.Array converted), true⟩

/-! ## Manifest loading (crates/config/src/plugin.rs) -/

/-- `parse_plugin_config`: read the file, parse the JSON, validate it
against the plugin schema, and deserialize.  Parse and schema failures
are abstracted into the file's `FileData`. -/
def parse_plugin_config (fs : FS) (path : FsPath) :
    Except ConfigError PluginConfigData :=
  match fs.lookupNode path with
  | some (.file (.manifest m)) => .ok m
  | some (.file (.invalidManifest msg)) => .error (.ParseError msg)
  | some (.file _) =>
      .error (.ParseError ("not a JSON document: " ++ pathDisplay path))
  | _ => .error (.IoError ("failed to read " ++ pathDisplay path))

/-- `load_plugin_config` (lines 58-66): require
`plugin_dir/plugin.json` to exist, then parse and validate it. -/
def load_plugin_config (fs : FS) (plugin_dir : FsPath) :
    Except ConfigError PluginConfigData :=
  if fs.pathExists (plugin_dir ++ ["plugin.json"]) = false then
    .error (.FileNotFound (pathDisplay (plugin_dir ++ ["plugin.json"])))
  else
    parse_plugin_config fs (plugin_dir ++ ["plugin.json"])

/-- Modelled from the spec: `load_plugin_config_validated` is exported
by the config crate (crates/config/src/lib.rs) and called by
`PluginManager::get`, but its definition is not under src/.  Per spec
section 4.4, the name-checked variant performs the plain load and
"additionally asserts `manifest.name == expected`, failing otherwise"
with a `ValidationError`. -/
def load_plugin_config_validated (fs : FS) (plugin_dir : FsPath)
    (expected : String) : Except ConfigError PluginConfigData :=
  match load_plugin_config fs plugin_dir with
  | .error e => .error e
  | .ok m =>
      if m.name = expected then .ok m
      else .error (.ValidationError
        ("plugin name \x27" ++ m.name ++ "\x27 does not match expected name \x27" ++
         expected ++ "\x27"))

/-- One step of the `load_all_plugins` scan (lines 114-154): skip
non-directories; on a successful manifest load insert it under the
manifest's own name (a directory-name mismatch is only warned about);
on a failed load record the diagnostic. -/
def loadAllStep (fs : FS) (plugins_dir : FsPath)
    (acc : List (String × PluginConfigData) × List String) (name : String) :
    List (String × PluginConfigData) × List String :=
  let path := plugins_dir ++ [name]
  if fs.isDirAt path = false then acc
  else
    match load_plugin_config fs path with
    | .ok config => (insertReplace acc.1 config.name config, acc.2)
    | .error e => (acc.1, acc.2 ++ [name ++ ": " ++ configErrorToString e])

/-- `load_all_plugins` (lines 97-164), re-exported as
`load_all_plugin_configs`: scan the plugins directory leniently;
fail only when the directory is missing or when no plugin loaded and at
least one failed. -/
def load_all_plugins (fs : FS) (plugins_dir : FsPath) :
    Except ConfigError (List (String × PluginConfigData)) :=
  if fs.pathExists plugins_dir = false then
    .error (.FileNotFound ("Plugins directory not found: " ++ pathDisplay plugins_dir))
  else
    match (fs.childNames plugins_dir).foldl (loadAllStep fs plugins_dir) ([], []) with
    | (plugins, errors) =>
      if plugins.isEmpty && !errors.isEmpty then
        .error (.ValidationError
          ("Failed to load any plugins:\n" ++ String.intercalate "\n" errors))
      else
        .ok plugins

/-! ## PluginManager (crates/core/src/plugin/manager.rs) -/

/-- The manager's state: shared root config, the resolved per-app data
directory, and the plugin-name → manifest cache.  The provider handle is
passed to the operations that use it. -/
structure PluginManager where
  config : ConfigData
  project_data_path : FsPath
  plugin_cache : List (String × PluginConfigData)

/-- `PluginInfo`: a manifest together with its on-disk location. -/
structure PluginInfo where
  config : PluginConfigData
  path : FsPath
deriving DecidableEq, Repr

/-- `PluginManager::install` (lines 66-94): require a source directory,
load and validate its `plugin.json`, refuse when
`data_root/<manifest.name>` already exists as a directory, otherwise
create the destination, copy the tree, and cache the manifest. -/
def PluginManager.install (st : PluginManager) (fs : FS) (dir_path : FsPath) :
    Except PluginError Unit × PluginManager × FS :=
  if fs.isDirAt dir_path = false then
    (.error (.InstallError ("Path is not a directory: " ++ pathDisplay dir_path)), st, fs)
  else
    match load_plugin_config fs dir_path with
    | .error e =>
        (.error (.InstallError ("Failed to read plugin config: " ++ configErrorToString e)),
         st, fs)
    | .ok plugin_config =>
        let plugin_name := plugin_config.name
        let dest_dir := st.project_data_path ++ [plugin_name]
        if fs.isDirAt dest_dir then
          (.error (.InstallError ("plugin " ++ plugin_name ++ " is already installed")),
           st, fs)
        else
          match fs.create_dir_all dest_dir with
          | .error e => (.error (.IoError e), st, fs)
          | .ok fs1 =>
              let fs2 := fs1.copy_dir_recursive dir_path dest_dir
              (.ok (),
               { st with plugin_cache := insertReplace st.plugin_cache plugin_name plugin_config },
               fs2)

/-- `PluginManager::get_all` (lines 112-132): load every plugin config,
replace the cache wholesale, and snapshot it as `PluginInfo`s. -/
def PluginManager.get_all (st : PluginManager) (fs : FS) :
    Except PluginError (List PluginInfo) × PluginManager :=
  match load_all_plugins fs st.project_data_path with
  | .error e => (.error (.LoadError (configErrorToString e)), st)
  | .ok plugins =>
      let st1 := { st with plugin_cache := plugins }
      let plugin_infos := st1.plugin_cache.map fun pr =>
        { config := pr.2, path := st.project_data_path ++ [pr.1] }
      (.ok plugin_infos, st1)

/-- `PluginManager::get` (lines 152-173): cache hit returns
immediately; a miss loads `data_root/<name>/plugin.json` through the
name-checked loader and caches the result. -/
def PluginManager.get (st : PluginManager) (fs : FS) (name : String) :
    Except PluginError PluginInfo × PluginManager :=
  let plugin_dir := st.project_data_path ++ [name]
  match st.plugin_cache.lookup name with
  | some cached_config => (.ok { config := cached_config, path := plugin_dir }, st)
  | none =>
      match load_plugin_config_validated fs plugin_dir name with
      | .error e =>
          (.error (.LoadError
            ("Failed to load plugin \x27" ++ name ++ "\x27: " ++ configErrorToString e)), st)
      | .ok config =>
          (.ok { config := config, path := plugin_dir },
           { st with plugin_cache := insertReplace st.plugin_cache name config })

/-- `PluginManager::load` (lines 175-184): `get`, then the provider
loads the plugin directory. -/
def PluginManager.load (st : PluginManager) (prov : WasmProviderState) (fs : FS)
    (name : String) : Except PluginError Unit × PluginManager × WasmProviderState :=
  match st.get fs name with
  | (.error e, st1) => (.error e, st1, prov)
  | (.ok plugin_info, st1) =>
      match prov.load fs plugin_info.path with
      | (.error e, prov1) => (.error (.LoadError (providerErrorToString e)), st1, prov1)
      | (.ok _, prov1) => (.ok (), st1, prov1)

/-- The message `PluginManager::invoke` raises for an
installed-but-unloaded plugin. -/
def mustLoadFirstMsg (name : String) : String :=
  "Plugin \x27" ++ name ++ "\x27 not found, You must load the plugin first"

/-- Outcome of `PluginManager::invoke`, with the observable facts of
whether `Provider::invoke` was reached and whether the guest ran. -/
structure ManagerInvokeOutput where
  result : Except PluginError ProviderValue
  state : PluginManager
  providerInvoked : Bool
  guestEntered : Bool

/-- `PluginManager::invoke` (lines 186-215): `get` (must be installed),
check through `with_plugins` that the plugin is loaded (else
`LoadError`), then delegate to `Provider::invoke`, wrapping provider
errors as `InvokeError` on their `Display` rendering. -/
def PluginManager.invoke (st : PluginManager) (prov : WasmProviderState) (fs : FS)
    (name function : String) (args : List ProviderValue) : ManagerInvokeOutput :=
  match st.get fs name with
  | (.error e, st1) => ⟨.error e, st1, false, false⟩
  | (.ok _, st1) =>
      if (prov.plugins.lookup name).isSome = false then
        ⟨.error (.LoadError (mustLoadFirstMsg name)), st1, false, false⟩
      else
        let out := prov.invoke name function args
        ⟨out.result.mapError (fun e => .InvokeError (providerErrorToString e)),
         st1, true, out.guestEntered⟩

/-! ## Helper lemmas: marshalling -/

/-- The Rust-side variant name of a `ProviderValue`. -/
def variantNameOf : ProviderValue → String
  | .Null => "Null"
  | .Bool _ => "Bool"
  | .I32 _ => "I32"
  | .I64 _ => "I64"
  | .F32 _ => "F32"
  | .F64 _ => "F64"
  | .String _ => "String"
  | .Array _ => "Array"
  | .Object _ => "Object"

lemma marshal_numeric_ok {v : ProviderValue} (h : valueIsNumeric v = true) :
    ∃ w, provider_value_to_val v = .ok w := by
  cases v <;> simp_all [valueIsNumeric, provider_value_to_val]

lemma marshal_fail_shape {v : ProviderValue} (h : valueIsNumeric v = false) :
    ∃ msg, provider_value_to_val v = .error (.InvocationFailed msg) := by
  cases v <;> simp_all [valueIsNumeric, provider_value_to_val]

lemma marshal_error_shape {v : ProviderValue} {e : ProviderError}
    (h : provider_value_to_val v = .error e) :
    ∃ msg, e = .InvocationFailed msg := by
  cases hn : valueIsNumeric v with
  | true =>
    obtain ⟨w, hw⟩ := marshal_numeric_ok hn
    rw [hw] at h
    cases h
  | false =>
    obtain ⟨msg, hmsg⟩ := marshal_fail_shape hn
    rw [hmsg] at h
    exact ⟨msg, (Except.error.inj h).symm⟩

lemma marshalArgs_fail {args : List ProviderValue}
    (hbad : ∃ a ∈ args, valueIsNumeric a = false) :
    ∃ v ∈ args, valueIsNumeric v = false ∧ ∃ msg,
      provider_value_to_val v = .error (.InvocationFailed msg) ∧
      marshalArgs args = .error (.InvocationFailed msg) := by
  induction args with
  | nil => simp at hbad
  | cons a l ih =>
    by_cases ha : valueIsNumeric a = false
    · obtain ⟨msg, hmsg⟩ := marshal_fail_shape ha
      exact ⟨a, List.mem_cons_self a l, ha, msg, hmsg, by
        simp [marshalArgs, hmsg]⟩
    · have ha' : valueIsNumeric a = true := by
        cases h : valueIsNumeric a
        · exact absurd h ha
        · rfl
      obtain ⟨w, hw⟩ := marshal_numeric_ok ha'
      have hbadl : ∃ b ∈ l, valueIsNumeric b = false := by
        obtain ⟨b, hb, hnb⟩ := hbad
        rcases List.mem_cons.mp hb with hb | hb
        · exact absurd (hb ▸ hnb) ha
        · exact ⟨b, hb, hnb⟩
      obtain ⟨v, hv, hnv, msg, hmsg, hrest⟩ := ih hbadl
      exact ⟨v, List.mem_cons_of_mem a hv, hnv, msg, hmsg, by
        simp [marshalArgs, hw, hrest]⟩

lemma marshalArgs_error_shape {args : List ProviderValue} {e : ProviderError}
    (h : marshalArgs args = .error e) :
    ∃ msg, e = .InvocationFailed msg := by
  induction args with
  | nil => simp [marshalArgs] at h
  | cons a l ih =>
    rw [marshalArgs] at h
    cases ha : provider_value_to_val a with
    | error e1 =>
      rw [ha] at h
      cases h
      exact marshal_error_shape ha
    | ok w =>
      rw [ha] at h
      cases hl : marshalArgs l with
      | error e2 =>
        rw [hl] at h
        cases h
        exact ih hl
      | ok ws =>
        rw [hl] at h
        cases h

lemma val_typed_numeric_ok {v : Val} {t : ValType}
    (ht : Val.matchesType v t = true) (hn : ValType.isNumeric t = true) :
    ∃ pv, val_to_provider_value v = .ok pv := by
  cases v <;> cases t <;> simp_all [Val.matchesType, ValType.isNumeric, val_to_provider_value]

/-- Element-wise conformance of a value list to a type list. -/
def listMatches : List Val → List ValType → Bool
  | [], [] => true
  | v :: vs, t :: ts => Val.matchesType v t && listMatches vs ts
  | _, _ => false

lemma convertVals_typed_numeric_ok : ∀ {outs : List Val} {ts : List ValType},
    listMatches outs ts = true → (∀ t ∈ ts, ValType.isNumeric t = true) →
    ∃ pvs, convertVals outs = .ok pvs := by
  intro outs
  induction outs with
  | nil => intro ts _ _; exact ⟨[], rfl⟩
  | cons v vs ih =>
    intro ts hm hn
    cases ts with
    | nil => simp [listMatches] at hm
    | cons t tr =>
      simp only [listMatches, Bool.and_eq_true] at hm
      obtain ⟨pv, hpv⟩ := val_typed_numeric_ok hm.1 (hn t (List.mem_cons_self t tr))
      obtain ⟨pvs, hpvs⟩ := ih hm.2 (fun u hu => hn u (List.mem_cons_of_mem t hu))
      exact ⟨pv :: pvs, by simp [convertVals, hpv, hpvs]⟩

/-! ## Claim theorems: marshalling and invoke (C2-C5) -/

/-- Claim C2: on a loaded plugin with a resolvable function, numeric
arguments marshal to the corresponding engine values (floats as their
bit patterns), and any `Null`/`Bool`/`String`/`Array`/`Object` argument
makes `invoke` return `InvocationFailed` with a message naming the
unsupported variant (the source messages also carry usage guidance),
without the guest function being entered. -/
theorem c2_invoke_rejects_unsupported_args
    (prov : WasmProviderState) (pname fname : String)
    (plugin : PluginInstance) (func : WasmFunc) (args : List ProviderValue)
    (hp : prov.plugins.lookup pname = some plugin)
    (hf : plugin.funcs.lookup fname = some func)
    (hbad : ∃ a ∈ args, valueIsNumeric a = false) :
    (∀ i : Int, provider_value_to_val (ProviderValue.I32 i) = .ok (Val.I32 i)) ∧
    (∀ i : Int, provider_value_to_val (ProviderValue.I64 i) = .ok (Val.I64 i)) ∧
    (∀ f : RustF32, provider_value_to_val (ProviderValue.F32 f) = .ok (Val.F32 f.to_bits)) ∧
    (∀ f : RustF64, provider_value_to_val (ProviderValue.F64 f) = .ok (Val.F64 f.to_bits)) ∧
    ∃ v ∈ args, valueIsNumeric v = false ∧ ∃ msg,
      provider_value_to_val v = .error (.InvocationFailed msg) ∧
      (variantNameOf v).data <:+: msg.data ∧
      prov.invoke pname fname args = ⟨.error (.InvocationFailed msg), false⟩ := by
  refine ⟨fun _ => rfl, fun _ => rfl, fun _ => rfl, fun _ => rfl, ?_⟩
  obtain ⟨v, hv, hnv, msg, hmsg, hmars⟩ := marshalArgs_fail hbad
  refine ⟨v, hv, hnv, msg, hmsg, ?_, ?_⟩
  · cases v <;> try simp [valueIsNumeric] at hnv
    all_goals
      have h1 := ProviderError.InvocationFailed.inj (Except.error.inj hmsg)
      rw [← h1]
      simp only [variantNameOf]
      decide
  · simp [WasmProviderState.invoke, hp, hf, hmars]

/-- Claim C3: if a resolvable exported function declares any result
type outside I32/I64/F32/F64 (e.g. a 128-bit SIMD value), `invoke`
fails with `InvocationFailed` before the call is made; the guest is
never entered. -/
theorem c3_invoke_nonnumeric_result_precheck
    (prov : WasmProviderState) (pname fname : String)
    (plugin : PluginInstance) (func : WasmFunc) (args : List ProviderValue)
    (hp : prov.plugins.lookup pname = some plugin)
    (hf : plugin.funcs.lookup fname = some func)
    (hbadres : ∃ t ∈ func.resultTypes, ValType.isNumeric t = false) :
    ∃ msg, prov.invoke pname fname args = ⟨.error (.InvocationFailed msg), false⟩ := by
  cases hargs : marshalArgs args with
  | error e =>
    obtain ⟨msg, rfl⟩ := marshalArgs_error_shape hargs
    exact ⟨msg, by simp [WasmProviderState.invoke, hp, hf, hargs]⟩
  | ok wargs =>
    have hfind : (func.resultTypes.find? (fun t => !t.isNumeric)).isSome = true := by
      rw [List.find?_isSome]
      obtain ⟨t, ht, hn⟩ := hbadres
      exact ⟨t, ht, by simp [hn]⟩
    obtain ⟨bad, hbad2⟩ := Option.isSome_iff_exists.mp hfind
    refine ⟨"WASM function \x27" ++ fname ++ "\x27 in plugin \x27" ++ pname ++
      "\x27 returns unsupported type: " ++ bad.debugName ++
      ". Only I32, I64, F32, F64 are supported.", ?_⟩
    simp [WasmProviderState.invoke, hp, hf, hargs, hbad2]

/-- Claim C4: after a successful guest call, `invoke` returns `Null`
for zero declared results, the single marshalled value for one, and an
`Array` of the marshalled values in declaration order for several.
`listMatches` states wasmtime's typing guarantee on call results. -/
theorem c4_invoke_result_marshalling
    (prov : WasmProviderState) (pname fname : String)
    (plugin : PluginInstance) (func : WasmFunc) (args : List ProviderValue)
    (wargs : List Val) (outs : List Val)
    (hp : prov.plugins.lookup pname = some plugin)
    (hf : plugin.funcs.lookup fname = some func)
    (hargs : marshalArgs args = .ok wargs)
    (hres : ∀ t ∈ func.resultTypes, ValType.isNumeric t = true)
    (hrun : func.run wargs = .ok outs)
    (htyped : listMatches outs func.resultTypes = true) :
    (prov.invoke pname fname args).guestEntered = true ∧
    (outs = [] → (prov.invoke pname fname args).result = .ok .Null) ∧
    (∀ v, outs = [v] → ∃ pv, val_to_provider_value v = .ok pv ∧
        (prov.invoke pname fname args).result = .ok pv) ∧
    (2 ≤ outs.length → ∃ pvs, convertVals outs = .ok pvs ∧
        (prov.invoke pname fname args).result = .ok (.Array pvs)) := by
  have hnone : func.resultTypes.find? (fun t => !t.isNumeric) = none := by
    rw [List.find?_eq_none]
    intro t ht
    simp [hres t ht]
  cases outs with
  | nil =>
    refine ⟨?_, ?_, ?_, ?_⟩
    · simp [WasmProviderState.invoke, hp, hf, hargs, hnone, hrun]
    · intro _
      simp [WasmProviderState.invoke, hp, hf, hargs, hnone, hrun]
    · intro v h
      cases h
    · intro h
      simp at h
  | cons v tail =>
    cases tail with
    | nil =>
      have hpv : ∃ pv, val_to_provider_value v = .ok pv := by
        cases hts : func.resultTypes with
        | nil => rw [hts] at htyped; simp [listMatches] at htyped
        | cons t tr =>
          rw [hts] at htyped
          simp only [listMatches, Bool.and_eq_true] at htyped
          exact val_typed_numeric_ok htyped.1 (hres t (hts ▸ List.mem_cons_self t tr))
      obtain ⟨pv, hpv⟩ := hpv
      refine ⟨?_, ?_, ?_, ?_⟩
      · simp [WasmProviderState.invoke, hp, hf, hargs, hnone, hrun]
      · intro h
        cases h
      · intro w h
        obtain rfl : v = w := (List.cons.inj h).1
        exact ⟨pv, hpv, by simp [WasmProviderState.invoke, hp, hf, hargs, hnone, hrun, hpv]⟩
      · intro h
        simp at h
    | cons v2 rest =>
      obtain ⟨pvs, hpvs⟩ := convertVals_typed_numeric_ok htyped hres
      refine ⟨?_, ?_, ?_, ?_⟩
      · simp [WasmProviderState.invoke, hp, hf, hargs, hnone, hrun, hpvs]
      · intro h
        cases h
      · intro w h
        cases h
      · intro _
        exact ⟨pvs, hpvs, by simp [WasmProviderState.invoke, hp, hf, hargs, hnone, hrun, hpvs]⟩

/-- Claim C5: marshalling any numeric variant from host to engine value
and back yields the same value bit-for-bit.  Floats are represented by
their IEEE-754 bit patterns, so this equality is exactly bit-pattern
identity, NaN payloads included. -/
theorem c5_marshalling_roundtrip :
    (∀ i : Int, (provider_value_to_val (ProviderValue.I32 i)).bind val_to_provider_value =
      .ok (ProviderValue.I32 i)) ∧
    (∀ i : Int, (provider_value_to_val (ProviderValue.I64 i)).bind val_to_provider_value =
      .ok (ProviderValue.I64 i)) ∧
    (∀ f : RustF32, (provider_value_to_val (ProviderValue.F32 f)).bind val_to_provider_value =
      .ok (ProviderValue.F32 f)) ∧
    (∀ f : RustF64, (provider_value_to_val (ProviderValue.F64 f)).bind val_to_provider_value =
      .ok (ProviderValue.F64 f)) :=
  ⟨fun _ => rfl, fun _ => rfl, fun _ => rfl, fun _ => rfl⟩

/-! ## Concrete provider state for witnesses -/

/-- `Sum(i32, i32) -> i32` of the example test plugin. -/
def sumFunc : WasmFunc :=
  ⟨[ValType.i32, ValType.i32], [ValType.i32],
   fun vals =>
     match vals with
     | [Val.I32 a, Val.I32 b] => .ok [Val.I32 (a + b)]
     | _ => .error "bad arguments"⟩

/-- `Pair() -> (i32, i64)` returning `(7, 99)` (spec scenario S2). -/
def pairFunc : WasmFunc :=
  ⟨[], [ValType.i32, ValType.i64], fun _ => .ok [Val.I32 7, Val.I64 99]⟩

/-- A function whose declared result type is a 128-bit SIMD value. -/
def vecFunc : WasmFunc :=
  ⟨[], [ValType.v128], fun _ => .ok [Val.V128 0]⟩

/-- A loaded test plugin exporting the three functions above. -/
def witPlugin : PluginInstance :=
  ⟨"test-plugin", [("Sum", sumFunc), ("Pair", pairFunc), ("Vec", vecFunc)]⟩

/-- A provider state with `test-plugin` loaded. -/
def witProv : WasmProviderState := ⟨some ⟨⟩, [("test-plugin", witPlugin)]⟩

/-- Witness for C2 at `invoke("test-plugin", "Sum", [Bool(true), I32(2)])`
(spec scenario S4). -/
theorem c2_witness :
    witProv.plugins.lookup "test-plugin" = some witPlugin ∧
    witPlugin.funcs.lookup "Sum" = some sumFunc ∧
    ((∀ i : Int, provider_value_to_val (ProviderValue.I32 i) = .ok (Val.I32 i)) ∧
     (∀ i : Int, provider_value_to_val (ProviderValue.I64 i) = .ok (Val.I64 i)) ∧
     (∀ f : RustF32, provider_value_to_val (ProviderValue.F32 f) = .ok (Val.F32 f.to_bits)) ∧
     (∀ f : RustF64, provider_value_to_val (ProviderValue.F64 f) = .ok (Val.F64 f.to_bits)) ∧
     ∃ v ∈ [ProviderValue.Bool true, ProviderValue.I32 2], valueIsNumeric v = false ∧ ∃ msg,
       provider_value_to_val v = .error (.InvocationFailed msg) ∧
       (variantNameOf v).data <:+: msg.data ∧
       witProv.invoke "test-plugin" "Sum" [ProviderValue.Bool true, ProviderValue.I32 2] =
         ⟨.error (.InvocationFailed msg), false⟩) :=
  ⟨rfl, rfl,
   c2_invoke_rejects_unsupported_args witProv "test-plugin" "Sum" witPlugin sumFunc
     [ProviderValue.Bool true, ProviderValue.I32 2] rfl rfl
     ⟨ProviderValue.Bool true, by simp, rfl⟩⟩

/-- Witness for C3 at `invoke("test-plugin", "Vec", [])`: the declared
`V128` result type is rejected before the call. -/
theorem c3_witness :
    witProv.plugins.lookup "test-plugin" = some witPlugin ∧
    witPlugin.funcs.lookup "Vec" = some vecFunc ∧
    (∃ t ∈ vecFunc.resultTypes, ValType.isNumeric t = false) ∧
    ∃ msg, witProv.invoke "test-plugin" "Vec" [] =
      ⟨.error (.InvocationFailed msg), false⟩ :=
  ⟨rfl, rfl, ⟨ValType.v128, by simp [vecFunc], rfl⟩,
   c3_invoke_nonnumeric_result_precheck witProv "test-plugin" "Vec" witPlugin vecFunc []
     rfl rfl ⟨ValType.v128, by simp [vecFunc], rfl⟩⟩

/-- Witness for C4 at `invoke("test-plugin", "Pair", [])` (spec
scenario S2, two results returned as an Array in declaration order). -/
theorem c4_witness :
    witProv.plugins.lookup "test-plugin" = some witPlugin ∧
    witPlugin.funcs.lookup "Pair" = some pairFunc ∧
    marshalArgs [] = .ok [] ∧
    pairFunc.run [] = .ok [Val.I32 7, Val.I64 99] ∧
    listMatches [Val.I32 7, Val.I64 99] pairFunc.resultTypes = true ∧
    ((witProv.invoke "test-plugin" "Pair" []).guestEntered = true ∧
     ([Val.I32 7, Val.I64 99] = [] →
       (witProv.invoke "test-plugin" "Pair" []).result = .ok .Null) ∧
     (∀ v, [Val.I32 7, Val.I64 99] = [v] → ∃ pv, val_to_provider_value v = .ok pv ∧
       (witProv.invoke "test-plugin" "Pair" []).result = .ok pv) ∧
     (2 ≤ [Val.I32 7, Val.I64 99].length → ∃ pvs,
       convertVals [Val.I32 7, Val.I64 99] = .ok pvs ∧
       (witProv.invoke "test-plugin" "Pair" []).result = .ok (.Array pvs))) :=
  ⟨rfl, rfl, rfl, rfl, rfl,
   c4_invoke_result_marshalling witProv "test-plugin" "Pair" witPlugin pairFunc []
     [] [Val.I32 7, Val.I64 99] rfl rfl rfl
     (by intro t ht; simp [pairFunc] at ht; rcases ht with rfl | rfl <;> rfl)
     rfl rfl⟩

/-! ## Claim theorems: manager error paths (C6, C7, C10) -/

/-- Claim C6: for an installed plugin (`get` succeeds) that is absent
from the provider's loaded-plugin map, `PluginManager::invoke` fails
with a `LoadError` whose message contains "load the plugin first", and
`Provider::invoke` is never reached. -/
theorem c6_invoke_before_load
    (st : PluginManager) (prov : WasmProviderState) (fs : FS)
    (name function : String) (args : List ProviderValue)
    (hget : (st.get fs name).1.isOk = true)
    (hnot : prov.plugins.lookup name = none) :
    (PluginManager.invoke st prov fs name function args).result =
      .error (.LoadError (mustLoadFirstMsg name)) ∧
    ("load the plugin first").data <:+: (mustLoadFirstMsg name).data ∧
    (PluginManager.invoke st prov fs name function args).providerInvoked = false ∧
    (PluginManager.invoke st prov fs name function args).guestEntered = false := by
  obtain ⟨info, st1, heq⟩ : ∃ info st1, st.get fs name = (.ok info, st1) := by
    rcases h : st.get fs name with ⟨r, s⟩
    cases r with
    | error e => rw [h] at hget; simp [Except.isOk, Except.toBool] at hget
    | ok info => exact ⟨info, s, rfl⟩
  have hmsg : (mustLoadFirstMsg name).data =
      ("Plugin \x27".data ++ name.data) ++
        "\x27 not found, You must load the plugin first".data := by
    simp [mustLoadFirstMsg, String.data_append]
  refine ⟨?_, ?_, ?_, ?_⟩
  · simp [PluginManager.invoke, heq, hnot]
  · rw [hmsg]
    have hsuf : ("load the plugin first").data <:+
        ("\x27 not found, You must load the plugin first").data := by decide
    exact (hsuf.trans (List.suffix_append _ _)).isInfix
  · simp [PluginManager.invoke, heq, hnot]
  · simp [PluginManager.invoke, heq, hnot]

/-- Manager state used by the C6 witness: `p` already cached. -/
def c6St : PluginManager :=
  ⟨⟨"bud", "0.1.0", "A test configuration"⟩, ["data"],
   [("p", ⟨"p", "1.0.0", "a plugin", "an author", []⟩)]⟩

/-- Witness for C6: `p` is installed (cache hit) but not loaded. -/
theorem c6_witness :
    (c6St.get ⟨[]⟩ "p").1.isOk = true ∧
    WasmProviderState.new.plugins.lookup "p" = none ∧
    ((PluginManager.invoke c6St WasmProviderState.new ⟨[]⟩ "p" "Sum" []).result =
      .error (.LoadError (mustLoadFirstMsg "p")) ∧
     ("load the plugin first").data <:+: (mustLoadFirstMsg "p").data ∧
     (PluginManager.invoke c6St WasmProviderState.new ⟨[]⟩ "p" "Sum" []).providerInvoked = false ∧
     (PluginManager.invoke c6St WasmProviderState.new ⟨[]⟩ "p" "Sum" []).guestEntered = false) :=
  ⟨rfl, rfl, c6_invoke_before_load c6St WasmProviderState.new ⟨[]⟩ "p" "Sum" [] rfl rfl⟩

/-- Claim C7: when the validated manifest of the source directory names
a plugin whose destination directory already exists, a second `install`
fails with `InstallError` saying the plugin is already installed, and
both the manager state (cache included) and the filesystem are returned
unchanged. -/
theorem c7_reinstall_blocked
    (st : PluginManager) (fs : FS) (dir_path : FsPath)
    (plugin_config : PluginConfigData)
    (hdir : fs.isDirAt dir_path = true)
    (hcfg : load_plugin_config fs dir_path = .ok plugin_config)
    (hdest : fs.isDirAt (st.project_data_path ++ [plugin_config.name]) = true) :
    st.install fs dir_path =
      (.error (.InstallError ("plugin " ++ plugin_config.name ++ " is already installed")),
       st, fs) := by
  simp [PluginManager.install, hdir, hcfg, hdest]

/-- Manifest used by the C7 witness. -/
def c7Cfg : PluginConfigData := ⟨"p", "1.0.0", "a plugin", "an author", []⟩

/-- Filesystem used by the C7 witness: a valid source at `/src` and an
already-installed `/data/p`. -/
def c7Fs : FS :=
  ⟨[([], .dir), (["src"], .dir), (["src", "plugin.json"], .file (.manifest c7Cfg)),
    (["data"], .dir), (["data", "p"], .dir)]⟩

/-- Manager state used by the C7 witness. -/
def c7St : PluginManager := ⟨⟨"bud", "0.1.0", "A test configuration"⟩, ["data"], []⟩

/-- Witness for C7: installing `/src` while `/data/p` exists fails and
changes nothing. -/
theorem c7_witness :
    c7Fs.isDirAt ["src"] = true ∧
    load_plugin_config c7Fs ["src"] = .ok c7Cfg ∧
    c7Fs.isDirAt (c7St.project_data_path ++ [c7Cfg.name]) = true ∧
    c7St.install c7Fs ["src"] =
      (.error (.InstallError ("plugin " ++ c7Cfg.name ++ " is already installed")),
       c7St, c7Fs) :=
  ⟨rfl, rfl, rfl, c7_reinstall_blocked c7St c7Fs ["src"] c7Cfg rfl rfl rfl⟩

/-- Claim C10 (amended): when the provider's shared instance slot is
still empty, `plugin_dir/main.wasm` exists as a file, and `plugin_dir`
has a final path component, `load` fails with exactly
"Provider not initialized. Call init() first." and leaves the provider
state (in particular the plugin map) unchanged. -/
theorem c10_load_before_init
    (prov : WasmProviderState) (fs : FS) (plugin_dir : FsPath) (nm : String)
    (hinit : prov.instanceSlot = none)
    (hfile : fs.isFileAt (plugin_dir ++ ["main.wasm"]) = true)
    (hlast : plugin_dir.getLast? = some nm) :
    prov.load fs plugin_dir =
      (.error (.LoadFailed "Provider not initialized. Call init() first."), prov) := by
  simp [WasmProviderState.load, hfile, hlast, hinit]

/-- Filesystem used by the C10 witness and counterexample. -/
def c10Fs : FS :=
  ⟨[([], .dir), (["plug"], .dir), (["plug", "main.wasm"], .file .blob),
    (["main.wasm"], .file .blob)]⟩

/-- Witness for C10: loading `/plug` before `init` fails with the
not-initialized message. -/
theorem c10_witness :
    WasmProviderState.new.instanceSlot = none ∧
    c10Fs.isFileAt (["plug"] ++ ["main.wasm"]) = true ∧
    (["plug"] : FsPath).getLast? = some "plug" ∧
    WasmProviderState.new.load c10Fs ["plug"] =
      (.error (.LoadFailed "Provider not initialized. Call init() first."),
       WasmProviderState.new) :=
  ⟨rfl, rfl, rfl, c10_load_before_init WasmProviderState.new c10Fs ["plug"] "plug" rfl rfl rfl⟩

/-- Counterexample for C10 as stated: with the provider uninitialized
and `/main.wasm` existing as a file, `load("/")` does not return the
not-initialized message; the name-extraction failure fires first. -/
theorem c10_counterexample :
    WasmProviderState.new.load c10Fs [] =
      (.error (.LoadFailed "Invalid plugin path: /"), WasmProviderState.new) ∧
    ProviderError.LoadFailed "Invalid plugin path: /" ≠
      ProviderError.LoadFailed "Provider not initialized. Call init() first." :=
  ⟨rfl, by decide⟩

/-! ## Helper lemmas: association-list lookup and insert -/

section LookupLemmas

variable {α β : Type} [BEq α] [LawfulBEq α] [DecidableEq α]

lemma lookup_cons_self (k : α) (v : β) (t : List (α × β)) :
    ((k, v) :: t).lookup k = some v := by
  simp [List.lookup]

lemma lookup_cons_ne {k a : α} (v : β) (t : List (α × β)) (h : k ≠ a) :
    ((a, v) :: t).lookup k = t.lookup k := by
  simp [List.lookup, beq_eq_false_iff_ne.mpr h]

lemma lookup_mem {l : List (α × β)} {k : α} {v : β}
    (h : l.lookup k = some v) : (k, v) ∈ l := by
  induction l with
  | nil => simp [List.lookup] at h
  | cons a t ih =>
    rcases a with ⟨a1, a2⟩
    by_cases hk : k = a1
    · subst hk
      rw [lookup_cons_self] at h
      cases h
      exact List.mem_cons_self _ _
    · rw [lookup_cons_ne _ _ hk] at h
      exact List.mem_cons_of_mem _ (ih h)

lemma lookup_eq_none_of_not_mem {l : List (α × β)} {k : α}
    (h : k ∉ l.map Prod.fst) : l.lookup k = none := by
  induction l with
  | nil => rfl
  | cons a t ih =>
    rcases a with ⟨a1, a2⟩
    simp only [List.map_cons, List.mem_cons] at h
    push_neg at h
    rw [lookup_cons_ne _ _ h.1]
    exact ih h.2

lemma lookup_map_replace {l : List (α × β)} {p : α} (n : β)
    (h : (l.lookup p).isSome = true) :
    ((l.map fun pr => if pr.1 = p then (p, n) else pr).lookup p) = some n := by
  induction l with
  | nil => simp [List.lookup] at h
  | cons a t ih =>
    rcases a with ⟨a1, a2⟩
    by_cases hk : a1 = p
    · subst hk
      simp only [List.map_cons, if_pos rfl]
      exact lookup_cons_self _ _ _
    · have hne : p ≠ a1 := fun heq => hk heq.symm
      simp only [List.map_cons, if_neg hk]
      rw [lookup_cons_ne _ _ hne]
      rw [lookup_cons_ne _ _ hne] at h
      exact ih h

lemma lookup_map_replace_ne {l : List (α × β)} {p q : α} (n : β)
    (h : q ≠ p) :
    ((l.map fun pr => if pr.1 = p then (p, n) else pr).lookup q) = l.lookup q := by
  induction l with
  | nil => rfl
  | cons a t ih =>
    rcases a with ⟨a1, a2⟩
    simp only [List.map_cons]
    by_cases hk : a1 = p
    · rw [if_pos hk, lookup_cons_ne _ _ h]
      have hq1 : q ≠ a1 := fun heq => h (heq.trans hk)
      rw [lookup_cons_ne _ _ hq1]
      exact ih
    · rw [if_neg hk]
      by_cases hq : q = a1
      · subst hq
        rw [lookup_cons_self, lookup_cons_self]
      · rw [lookup_cons_ne _ _ hq, lookup_cons_ne _ _ hq]
        exact ih

lemma lookup_append_sing_self {l : List (α × β)} {p : α} (n : β)
    (h : l.lookup p = none) : ((l ++ [(p, n)]).lookup p) = some n := by
  induction l with
  | nil => exact lookup_cons_self _ _ _
  | cons a t ih =>
    rcases a with ⟨a1, a2⟩
    by_cases hk : p = a1
    · subst hk
      rw [lookup_cons_self] at h
      cases h
    · rw [List.cons_append, lookup_cons_ne _ _ hk]
      rw [lookup_cons_ne _ _ hk] at h
      exact ih h

lemma lookup_append_sing_ne {l : List (α × β)} {p q : α} (n : β)
    (h : q ≠ p) : ((l ++ [(p, n)]).lookup q) = l.lookup q := by
  induction l with
  | nil => exact lookup_cons_ne _ _ h
  | cons a t ih =>
    rcases a with ⟨a1, a2⟩
    by_cases hq : q = a1
    · subst hq
      rw [List.cons_append, lookup_cons_self, lookup_cons_self]
    · rw [List.cons_append, lookup_cons_ne _ _ hq, lookup_cons_ne _ _ hq]
      exact ih

end LookupLemmas

lemma insertReplace_mem {α : Type} {m : List (String × α)} {k : String} {v : α}
    {pr : String × α} (h : pr ∈ insertReplace m k v) : pr ∈ m ∨ pr = (k, v) := by
  unfold insertReplace at h
  split at h
  · obtain ⟨a, ha, hfa⟩ := List.mem_map.mp h
    by_cases hk : a.1 = k
    · right
      rw [if_pos hk] at hfa
      exact hfa.symm
    · left
      rw [if_neg hk] at hfa
      exact hfa ▸ ha
  · rcases List.mem_append.mp h with h1 | h1
    · exact Or.inl h1
    · right
      simpa using h1

lemma insertReplace_lookup_self {α : Type} (m : List (String × α)) (k : String) (v : α) :
    (insertReplace m k v).lookup k = some v := by
  unfold insertReplace
  split
  · exact lookup_map_replace v (by assumption)
  · refine lookup_append_sing_self v ?_
    rename_i h
    cases hl : m.lookup k
    · rfl
    · rw [hl] at h
      simp at h

lemma insertReplace_of_lookup_none {α : Type} {m : List (String × α)} {k : String} (v : α)
    (h : m.lookup k = none) : insertReplace m k v = m ++ [(k, v)] := by
  unfold insertReplace
  rw [h]
  rfl

lemma insertReplace_keys_of_none {α : Type} {m : List (String × α)} {k : String} (v : α)
    (h : m.lookup k = none) :
    (insertReplace m k v).map Prod.fst = m.map Prod.fst ++ [k] := by
  rw [insertReplace_of_lookup_none v h, List.map_append]
  rfl

lemma insertReplace_length_ge {α : Type} (m : List (String × α)) (k : String) (v : α) :
    m.length ≤ (insertReplace m k v).length := by
  unfold insertReplace
  split
  · rw [List.length_map]
  · rw [List.length_append]
    omega

lemma insertReplace_ne_nil {α : Type} (m : List (String × α)) (k : String) (v : α) :
    insertReplace m k v ≠ [] := by
  unfold insertReplace
  split
  · intro h
    rename_i hs
    rw [List.map_eq_nil_iff] at h
    subst h
    simp [List.lookup] at hs
  · exact fun h => by simp at h

/-! ## Helper lemmas: filesystem updates -/

lemma setNode_lookup_self (fs : FS) (p : FsPath) (n : Node) :
    (fs.setNode p n).lookupNode p = some n := by
  unfold FS.setNode FS.lookupNode
  split
  · exact lookup_map_replace n (by assumption)
  · refine lookup_append_sing_self n ?_
    rename_i h
    unfold FS.pathExists FS.lookupNode at h
    cases hl : fs.nodes.lookup p
    · rfl
    · rw [hl] at h
      simp at h

lemma setNode_lookup_ne (fs : FS) {p q : FsPath} (n : Node) (h : q ≠ p) :
    (fs.setNode p n).lookupNode q = fs.lookupNode q := by
  unfold FS.setNode FS.lookupNode
  split
  · exact lookup_map_replace_ne n h
  · exact lookup_append_sing_ne n h

lemma setNode_isDirAt_dir (fs : FS) (p : FsPath) :
    (fs.setNode p .dir).isDirAt p = true := by
  unfold FS.isDirAt
  rw [setNode_lookup_self]

lemma setNode_isDirAt_ne (fs : FS) {p q : FsPath} (n : Node) (h : q ≠ p) :
    (fs.setNode p n).isDirAt q = fs.isDirAt q := by
  unfold FS.isDirAt
  rw [setNode_lookup_ne fs n h]

lemma foldl_setNode_isDirAt_ne (entries : List (FsPath × Node)) (q : FsPath) :
    ∀ (fs : FS), (∀ pr ∈ entries, pr.1 ≠ q) →
    (entries.foldl (fun acc pr => acc.setNode pr.1 pr.2) fs).isDirAt q = fs.isDirAt q := by
  induction entries with
  | nil => intro fs _; rfl
  | cons a t ih =>
    intro fs h
    rw [List.foldl_cons]
    rw [ih _ (fun pr hpr => h pr (List.mem_cons_of_mem a hpr))]
    exact setNode_isDirAt_ne fs a.2 (fun heq => h a (List.mem_cons_self a t) heq.symm)

lemma foldl_setdirs_preserves {α : Type} (l : List α) (g : α → FsPath) (q : FsPath) :
    ∀ (fs : FS), fs.isDirAt q = true →
    (l.foldl (fun acc a => acc.setNode (g a) .dir) fs).isDirAt q = true := by
  induction l with
  | nil => intro fs h; exact h
  | cons a t ih =>
    intro fs h
    rw [List.foldl_cons]
    refine ih _ ?_
    by_cases hq : q = g a
    · subst hq
      exact setNode_isDirAt_dir fs (g a)
    · rw [setNode_isDirAt_ne fs _ hq]
      exact h

lemma create_dir_all_preserves {fs fs1 : FS} {p q : FsPath}
    (h : fs.create_dir_all p = .ok fs1) (hq : fs.isDirAt q = true) :
    fs1.isDirAt q = true := by
  unfold FS.create_dir_all at h
  split at h
  · cases h
  · cases h
    exact foldl_setdirs_preserves _ (fun i => p.take (i + 1)) q fs hq

lemma create_dir_all_isDirAt_self {fs fs1 : FS} {p : FsPath}
    (h : fs.create_dir_all p = .ok fs1) (hp : p ≠ []) :
    fs1.isDirAt p = true := by
  unfold FS.create_dir_all at h
  split at h
  · cases h
  · cases h
    cases hl : p.length with
    | zero => exact absurd (List.length_eq_zero.mp hl) hp
    | succ k =>
      rw [List.range_succ, List.foldl_append, List.foldl_cons, List.foldl_nil]
      have htake : p.take (k + 1) = p := by
        rw [← hl]
        exact List.take_length p
      rw [htake]
      exact setNode_isDirAt_dir _ p

lemma copy_preserves_isDirAt_le {fs : FS} {src dst q : FsPath}
    (hq : fs.isDirAt q = true) (hlen : q.length ≤ dst.length) :
    (fs.copy_dir_recursive src dst).isDirAt q = true := by
  unfold FS.copy_dir_recursive
  have hstart : ((fs.setNode dst .dir).isDirAt q) = true := by
    by_cases hqd : q = dst
    · subst hqd
      exact setNode_isDirAt_dir fs q
    · rw [setNode_isDirAt_ne fs _ hqd]
      exact hq
  rw [foldl_setNode_isDirAt_ne _ q _ ?hne]
  · exact hstart
  case hne =>
    intro pr hpr
    obtain ⟨orig, _, hcond⟩ := List.mem_filterMap.mp hpr
    split at hcond
    · rename_i hcnd
      rw [Bool.and_eq_true] at hcnd
      have hlt : src.length < orig.1.length := of_decide_eq_true hcnd.2
      cases hcond
      intro heq
      have h1 : dst ++ orig.1.drop src.length = q := heq
      have h2 : (dst ++ orig.1.drop src.length).length = q.length := by rw [h1]
      rw [List.length_append, List.length_drop] at h2
      omega
    · cases hcond

/-! ## Helper lemmas: install and the name-checked loader -/

lemma validated_ok_iff {fs : FS} {dir : FsPath} {expected : String} {m : PluginConfigData} :
    load_plugin_config_validated fs dir expected = .ok m ↔
    (load_plugin_config fs dir = .ok m ∧ m.name = expected) := by
  cases h : load_plugin_config fs dir with
  | error e =>
    simp [load_plugin_config_validated, h]
  | ok m1 =>
    by_cases hn : m1.name = expected
    · simp only [load_plugin_config_validated, h, if_pos hn]
      constructor
      · intro hx
        cases hx
        exact ⟨rfl, hn⟩
      · rintro ⟨hx, -⟩
        cases hx
        rfl
    · simp only [load_plugin_config_validated, h, if_neg hn]
      constructor
      · intro hx
        cases hx
      · rintro ⟨hx, hx2⟩
        cases hx
        exact absurd hx2 hn

lemma install_ok_spec {st : PluginManager} {fs : FS} {dir_path : FsPath}
    {cfg : PluginConfigData} {st1 : PluginManager} {fs1 : FS}
    (hcfg : load_plugin_config fs dir_path = .ok cfg)
    (hok : st.install fs dir_path = (.ok (), st1, fs1)) :
    st1.project_data_path = st.project_data_path ∧
    st1.plugin_cache = insertReplace st.plugin_cache cfg.name cfg ∧
    fs1.isDirAt (st.project_data_path ++ [cfg.name]) = true ∧
    ∀ q, fs.isDirAt q = true → q.length ≤ st.project_data_path.length + 1 →
      fs1.isDirAt q = true := by
  cases hdir : fs.isDirAt dir_path with
  | false =>
    have heval : st.install fs dir_path =
        (.error (.InstallError ("Path is not a directory: " ++ pathDisplay dir_path)), st, fs) := by
      simp [PluginManager.install, hdir]
    rw [heval] at hok
    simp [Prod.mk.injEq] at hok
  | true =>
    cases hdest : fs.isDirAt (st.project_data_path ++ [cfg.name]) with
    | true =>
      have heval : st.install fs dir_path =
          (.error (.InstallError ("plugin " ++ cfg.name ++ " is already installed")), st, fs) := by
        simp [PluginManager.install, hdir, hcfg, hdest]
      rw [heval] at hok
      simp [Prod.mk.injEq] at hok
    | false =>
      cases hcda : fs.create_dir_all (st.project_data_path ++ [cfg.name]) with
      | error e =>
        have heval : st.install fs dir_path = (.error (.IoError e), st, fs) := by
          simp [PluginManager.install, hdir, hcfg, hdest, hcda]
        rw [heval] at hok
        simp [Prod.mk.injEq] at hok
      | ok fsa =>
        have heval : st.install fs dir_path =
            (.ok (),
             { st with plugin_cache := insertReplace st.plugin_cache cfg.name cfg },
             fsa.copy_dir_recursive dir_path (st.project_data_path ++ [cfg.name])) := by
          simp [PluginManager.install, hdir, hcfg, hdest, hcda]
        rw [heval] at hok
        simp only [Prod.mk.injEq, true_and] at hok
        obtain ⟨hst, hfs⟩ := hok
        subst hst
        subst hfs
        refine ⟨rfl, rfl, ?_, ?_⟩
        · have hdne : st.project_data_path ++ [cfg.name] ≠ [] := by simp
          have hd1 : fsa.isDirAt (st.project_data_path ++ [cfg.name]) = true :=
            create_dir_all_isDirAt_self hcda hdne
          exact copy_preserves_isDirAt_le hd1 (le_refl _)
        · intro q hq hql
          have hq1 : fsa.isDirAt q = true := create_dir_all_preserves hcda hq
          refine copy_preserves_isDirAt_le hq1 ?_
          rw [List.length_append]
          simpa using hql

/-! ## Claim theorem: the name invariant of get (C1) -/

/-- Claim C1 (amended): on a cache miss, `get(name)` succeeds iff
`data_root/<name>/plugin.json` loads to a manifest whose `name` equals
`name` (the name check is the spec-modelled `load_plugin_config_validated`),
and any failure is a `LoadError`; moreover `install` always creates the
destination directory named by the validated manifest and caches that
manifest under its own name.  The iff does not extend to cache states
produced by `get_all` on a directory whose manifest name differs from
its basename (see the counterexample). -/
theorem c1_get_name_checked
    (st : PluginManager) (fs : FS) (name : String)
    (hmiss : st.plugin_cache.lookup name = none) :
    ((st.get fs name).1.isOk = true ↔
      ∃ m, load_plugin_config fs (st.project_data_path ++ [name]) = .ok m ∧
        m.name = name) ∧
    (∀ e, (st.get fs name).1 = .error e → ∃ msg, e = .LoadError msg) ∧
    (∀ dir_path st1 fs1 cfg,
      load_plugin_config fs dir_path = .ok cfg →
      st.install fs dir_path = (.ok (), st1, fs1) →
      fs1.isDirAt (st.project_data_path ++ [cfg.name]) = true ∧
      st1.plugin_cache.lookup cfg.name = some cfg) := by
  refine ⟨?_, ?_, ?_⟩
  · cases hval : load_plugin_config_validated fs (st.project_data_path ++ [name]) name with
    | ok m =>
      have hg : (st.get fs name).1.isOk = true := by
        simp [PluginManager.get, hmiss, hval, Except.isOk, Except.toBool]
      constructor
      · intro _
        exact ⟨m, validated_ok_iff.mp hval⟩
      · intro _
        exact hg
    | error e =>
      have hg : (st.get fs name).1.isOk = false := by
        simp [PluginManager.get, hmiss, hval, Except.isOk, Except.toBool]
      constructor
      · intro hx
        rw [hg] at hx
        cases hx
      · rintro ⟨m, hload, hname⟩
        have : load_plugin_config_validated fs (st.project_data_path ++ [name]) name =
            .ok m := validated_ok_iff.mpr ⟨hload, hname⟩
        rw [hval] at this
        cases this
  · intro e he
    cases hval : load_plugin_config_validated fs (st.project_data_path ++ [name]) name with
    | ok m =>
      have : (st.get fs name).1 = .ok { config := m, path := st.project_data_path ++ [name] } := by
        simp [PluginManager.get, hmiss, hval]
      rw [this] at he
      cases he
    | error e1 =>
      have : (st.get fs name).1 = .error (.LoadError
          ("Failed to load plugin \x27" ++ name ++ "\x27: " ++ configErrorToString e1)) := by
        simp [PluginManager.get, hmiss, hval]
      rw [this] at he
      exact ⟨_, (Except.error.inj he).symm⟩
  · intro dir_path st1 fs1 cfg hcfg hinst
    obtain ⟨-, hcache, hdest, -⟩ := install_ok_spec hcfg hinst
    exact ⟨hdest, by rw [hcache]; exact insertReplace_lookup_self _ _ _⟩

/-- Manifest for the C1 witness plugin: name matches its directory. -/
def c1GoodCfg : PluginConfigData := ⟨"p", "1.0.0", "a plugin", "an author", []⟩

/-- Filesystem for the C1 witness: `/data/p` holds a manifest named `p`. -/
def c1GoodFs : FS :=
  ⟨[([], .dir), (["data"], .dir), (["data", "p"], .dir),
    (["data", "p", "plugin.json"], .file (.manifest c1GoodCfg))]⟩

/-- Witness for C1 at an empty cache over a well-named plugin. -/
theorem c1_witness :
    c7St.plugin_cache.lookup "p" = none ∧
    (((c7St.get c1GoodFs "p").1.isOk = true ↔
      ∃ m, load_plugin_config c1GoodFs (c7St.project_data_path ++ ["p"]) = .ok m ∧
        m.name = "p") ∧
     (∀ e, (c7St.get c1GoodFs "p").1 = .error e → ∃ msg, e = .LoadError msg) ∧
     (∀ dir_path st1 fs1 cfg,
       load_plugin_config c1GoodFs dir_path = .ok cfg →
       c7St.install c1GoodFs dir_path = (.ok (), st1, fs1) →
       fs1.isDirAt (c7St.project_data_path ++ [cfg.name]) = true ∧
       st1.plugin_cache.lookup cfg.name = some cfg)) :=
  ⟨rfl, c1_get_name_checked c7St c1GoodFs "p" rfl⟩

/-- Manifest whose name `b` differs from its directory `a`. -/
def c1Cfg : PluginConfigData := ⟨"b", "1.0.0", "a plugin", "an author", []⟩

/-- Filesystem with the mismatched plugin directory `/data/a`. -/
def c1Fs : FS :=
  ⟨[([], .dir), (["data"], .dir), (["data", "a"], .dir),
    (["data", "a", "plugin.json"], .file (.manifest c1Cfg))]⟩

/-- The manager state reached by running `get_all` on `c1Fs`. -/
def c1St1 : PluginManager := (c7St.get_all c1Fs).2

/-- Counterexample for C1 as stated: after `get_all` over a directory
`a` whose manifest is named `b`, `get("b")` succeeds from the cache even
though `/data/b` does not exist, so no manifest with that name lives at
`data_root/b` and the claimed iff fails in this reachable state. -/
theorem c1_counterexample :
    (c7St.get_all c1Fs).1.isOk = true ∧
    (c1St1.get c1Fs "b").1.isOk = true ∧
    load_plugin_config c1Fs (c1St1.project_data_path ++ ["b"]) =
      .error (.FileNotFound "/data/b/plugin.json") ∧
    c1Fs.isDirAt (c1St1.project_data_path ++ ["b"]) = false :=
  ⟨rfl, rfl, rfl, rfl⟩

/-! ## Helper lemmas: the cache-directory invariant (C9) -/

/-- The spec's Plugin Cache invariant: every cached key has an existing
directory under the data root. -/
@[reducible]
def cacheOk (st : PluginManager) (fs : FS) : Prop :=
  ∀ pr ∈ st.plugin_cache, fs.isDirAt (st.project_data_path ++ [pr.1]) = true

/-- The manifest name produced by scanning one child of the data root:
`some` exactly when the child is a directory whose manifest loads. -/
def validName (fs : FS) (root : FsPath) (child : String) : Option String :=
  if fs.isDirAt (root ++ [child]) = false then none
  else
    match load_plugin_config fs (root ++ [child]) with
    | .ok cfg => some cfg.name
    | .error _ => none

lemma validName_isDir {fs : FS} {root : FsPath} {child nm : String}
    (h : validName fs root child = some nm) :
    fs.isDirAt (root ++ [child]) = true := by
  unfold validName at h
  split at h
  · cases h
  · rename_i hd
    cases hdc : fs.isDirAt (root ++ [child])
    · exact absurd hdc hd
    · rfl

lemma load_ok_manifest_node {fs : FS} {dir : FsPath} {m : PluginConfigData}
    (h : load_plugin_config fs dir = .ok m) :
    fs.lookupNode (dir ++ ["plugin.json"]) = some (.file (.manifest m)) := by
  unfold load_plugin_config at h
  split at h
  · cases h
  · unfold parse_plugin_config at h
    split at h
    · rename_i heq
      cases h
      exact heq
    · cases h
    · cases h
    · cases h

lemma manifest_parent_isDir {fs : FS} {dir : FsPath} {m : PluginConfigData}
    (hwf : fs.Wf) (h : load_plugin_config fs dir = .ok m) :
    fs.isDirAt dir = true := by
  have hnode := load_ok_manifest_node h
  have hmem : (dir ++ ["plugin.json"], Node.file (.manifest m)) ∈ fs.nodes :=
    lookup_mem hnode
  have hne : dir ++ ["plugin.json"] ≠ [] := by simp
  have hpar := hwf.2 _ hmem hne
  rwa [show (dir ++ ["plugin.json"]).dropLast = dir from List.dropLast_concat] at hpar

lemma get_state_cases (st : PluginManager) (fs : FS) (name : String) :
    (st.get fs name).2 = st ∨
    ∃ cfg, load_plugin_config_validated fs (st.project_data_path ++ [name]) name = .ok cfg ∧
      (st.get fs name).2 =
        { st with plugin_cache := insertReplace st.plugin_cache name cfg } := by
  cases hc : st.plugin_cache.lookup name with
  | some cached =>
    left
    simp [PluginManager.get, hc]
  | none =>
    cases hval : load_plugin_config_validated fs (st.project_data_path ++ [name]) name with
    | error e =>
      left
      simp [PluginManager.get, hc, hval]
    | ok cfg =>
      right
      exact ⟨cfg, rfl, by simp [PluginManager.get, hc, hval]⟩

lemma load_all_fold_mem (fs : FS) (root : FsPath) (children : List String) :
    ∀ (m : List (String × PluginConfigData)) (errs : List String)
      (pr : String × PluginConfigData),
    pr ∈ (children.foldl (loadAllStep fs root) (m, errs)).1 →
    pr ∈ m ∨ ∃ child ∈ children, validName fs root child = some pr.1 := by
  induction children with
  | nil =>
    intro m errs pr h
    exact Or.inl h
  | cons c cs ih =>
    intro m errs pr h
    rw [List.foldl_cons] at h
    cases hdc : fs.isDirAt (root ++ [c]) with
    | false =>
      rw [show loadAllStep fs root (m, errs) c = (m, errs) from by
        simp [loadAllStep, hdc]] at h
      rcases ih m errs pr h with h1 | ⟨child, hch, hvn⟩
      · exact Or.inl h1
      · exact Or.inr ⟨child, List.mem_cons_of_mem c hch, hvn⟩
    | true =>
      cases hl : load_plugin_config fs (root ++ [c]) with
      | error e =>
        rw [show loadAllStep fs root (m, errs) c =
            (m, errs ++ [c ++ ": " ++ configErrorToString e]) from by
          simp [loadAllStep, hdc, hl]] at h
        rcases ih _ _ pr h with h1 | ⟨child, hch, hvn⟩
        · exact Or.inl h1
        · exact Or.inr ⟨child, List.mem_cons_of_mem c hch, hvn⟩
      | ok cfg =>
        rw [show loadAllStep fs root (m, errs) c =
            (insertReplace m cfg.name cfg, errs) from by
          simp [loadAllStep, hdc, hl]] at h
        rcases ih _ _ pr h with h1 | ⟨child, hch, hvn⟩
        · rcases insertReplace_mem h1 with h2 | h2
          · exact Or.inl h2
          · refine Or.inr ⟨c, List.mem_cons_self c cs, ?_⟩
            rw [h2]
            simp [validName, hdc, hl]
        · exact Or.inr ⟨child, List.mem_cons_of_mem c hch, hvn⟩

lemma load_all_ok_mem {fs : FS} {root : FsPath}
    {plugins : List (String × PluginConfigData)}
    (h : load_all_plugins fs root = .ok plugins) :
    ∀ pr ∈ plugins, ∃ child, validName fs root child = some pr.1 := by
  intro pr hpr
  unfold load_all_plugins at h
  split at h
  · cases h
  · rcases hfold : (fs.childNames root).foldl (loadAllStep fs root) ([], []) with ⟨s1, s2⟩
    simp only [hfold] at h
    split at h
    · cases h
    · cases h
      have hfst : ((fs.childNames root).foldl (loadAllStep fs root) ([], [])).1 = plugins := by
        rw [hfold]
      rw [← hfst] at hpr
      rcases load_all_fold_mem fs root (fs.childNames root) [] [] pr hpr with h1 | ⟨c, _, hvn⟩
      · cases h1
      · exact ⟨c, hvn⟩

/-- Claim C9 (amended): the cache-directory invariant is preserved by
`install`, `get`, `load`, and `invoke`; it is preserved by `get_all`
provided every scanned manifest's name equals its directory's basename.
Without that proviso `get_all` can cache a key with no corresponding
directory (see the counterexample). -/
theorem c9_cache_dir_invariant
    (st : PluginManager) (prov : WasmProviderState) (fs : FS)
    (hwf : fs.Wf) (hok : cacheOk st fs) :
    (∀ dir_path r st1 fs1, st.install fs dir_path = (r, st1, fs1) → cacheOk st1 fs1) ∧
    (∀ name, cacheOk (st.get fs name).2 fs) ∧
    (∀ name, cacheOk (st.load prov fs name).2.1 fs) ∧
    (∀ name function args,
      cacheOk (PluginManager.invoke st prov fs name function args).state fs) ∧
    ((∀ child nm, validName fs st.project_data_path child = some nm → nm = child) →
      cacheOk (st.get_all fs).2 fs) := by
  have hget : ∀ name, cacheOk (st.get fs name).2 fs := by
    intro name
    rcases get_state_cases st fs name with h1 | ⟨cfg, hval, h1⟩
    · rw [h1]
      exact hok
    · rw [h1]
      intro pr hpr
      rcases insertReplace_mem hpr with h2 | h2
      · exact hok pr h2
      · subst h2
        obtain ⟨hload, -⟩ := validated_ok_iff.mp hval
        exact manifest_parent_isDir hwf hload
  refine ⟨?_, hget, ?_, ?_, ?_⟩
  · intro dir_path r st1 fs1 hinst
    cases hdir : fs.isDirAt dir_path with
    | false =>
      rw [show st.install fs dir_path =
          (.error (.InstallError ("Path is not a directory: " ++ pathDisplay dir_path)), st, fs)
        from by simp [PluginManager.install, hdir]] at hinst
      obtain ⟨h2, h3⟩ := Prod.mk.inj (Prod.mk.inj hinst).2
      exact (h2 ▸ h3 ▸ hok : cacheOk st1 fs1)
    | true =>
      cases hcfg : load_plugin_config fs dir_path with
      | error e =>
        rw [show st.install fs dir_path =
            (.error (.InstallError ("Failed to read plugin config: " ++ configErrorToString e)),
             st, fs) from by simp [PluginManager.install, hdir, hcfg]] at hinst
        obtain ⟨h2, h3⟩ := Prod.mk.inj (Prod.mk.inj hinst).2
        exact (h2 ▸ h3 ▸ hok : cacheOk st1 fs1)
      | ok cfg =>
        cases hdest : fs.isDirAt (st.project_data_path ++ [cfg.name]) with
        | true =>
          rw [show st.install fs dir_path =
              (.error (.InstallError ("plugin " ++ cfg.name ++ " is already installed")),
               st, fs) from by simp [PluginManager.install, hdir, hcfg, hdest]] at hinst
          obtain ⟨h2, h3⟩ := Prod.mk.inj (Prod.mk.inj hinst).2
          exact (h2 ▸ h3 ▸ hok : cacheOk st1 fs1)
        | false =>
          cases hcda : fs.create_dir_all (st.project_data_path ++ [cfg.name]) with
          | error e =>
            rw [show st.install fs dir_path = (.error (.IoError e), st, fs) from by
              simp [PluginManager.install, hdir, hcfg, hdest, hcda]] at hinst
            obtain ⟨h2, h3⟩ := Prod.mk.inj (Prod.mk.inj hinst).2
            exact (h2 ▸ h3 ▸ hok : cacheOk st1 fs1)
          | ok fsa =>
            have heval : st.install fs dir_path =
                (.ok (),
                 { st with plugin_cache := insertReplace st.plugin_cache cfg.name cfg },
                 fsa.copy_dir_recursive dir_path (st.project_data_path ++ [cfg.name])) := by
              simp [PluginManager.install, hdir, hcfg, hdest, hcda]
            obtain ⟨hpp, hcache, hdest2, hpres⟩ := install_ok_spec hcfg heval
            rw [heval] at hinst
            obtain ⟨hst1, hfs1⟩ := Prod.mk.inj (Prod.mk.inj hinst).2
            subst hst1
            subst hfs1
            intro pr hpr
            rw [hpp]
            rw [hcache] at hpr
            rcases insertReplace_mem hpr with h2 | h2
            · refine hpres _ (hok pr h2) ?_
              rw [List.length_append]
              simp
            · subst h2
              exact hdest2
  · intro name
    rcases hg : st.get fs name with ⟨r, st1⟩
    have hst1 : cacheOk st1 fs := by
      have := hget name
      rw [hg] at this
      exact this
    cases r with
    | error e =>
      simpa [PluginManager.load, hg] using hst1
    | ok info =>
      rcases hp : prov.load fs info.path with ⟨rp, prov1⟩
      cases rp with
      | error e => simpa [PluginManager.load, hg, hp] using hst1
      | ok u => simpa [PluginManager.load, hg, hp] using hst1
  · intro name function args
    rcases hg : st.get fs name with ⟨r, st1⟩
    have hst1 : cacheOk st1 fs := by
      have := hget name
      rw [hg] at this
      exact this
    cases r with
    | error e => simpa [PluginManager.invoke, hg] using hst1
    | ok info =>
      by_cases hl : (prov.plugins.lookup name).isSome = false
      · simpa [PluginManager.invoke, hg, hl] using hst1
      · simpa [PluginManager.invoke, hg, hl] using hst1
  · intro hmatch
    cases hall : load_all_plugins fs st.project_data_path with
    | error e =>
      rw [show (st.get_all fs).2 = st from by simp [PluginManager.get_all, hall]]
      exact hok
    | ok plugins =>
      rw [show (st.get_all fs).2 = { st with plugin_cache := plugins } from by
        simp [PluginManager.get_all, hall]]
      intro pr hpr
      obtain ⟨child, hvn⟩ := load_all_ok_mem hall pr hpr
      have hceq : pr.1 = child := hmatch child pr.1 hvn
      rw [hceq]
      exact validName_isDir hvn

/-- Witness for C9: the invariant statement instantiated at a concrete
well-formed filesystem and an empty cache. -/
theorem c9_witness :
    c7Fs.Wf ∧ cacheOk c7St c7Fs ∧
    ((∀ dir_path r st1 fs1, c7St.install c7Fs dir_path = (r, st1, fs1) → cacheOk st1 fs1) ∧
     (∀ name, cacheOk (c7St.get c7Fs name).2 c7Fs) ∧
     (∀ name, cacheOk (c7St.load WasmProviderState.new c7Fs name).2.1 c7Fs) ∧
     (∀ name function args,
       cacheOk (PluginManager.invoke c7St WasmProviderState.new c7Fs name function args).state c7Fs) ∧
     ((∀ child nm, validName c7Fs c7St.project_data_path child = some nm → nm = child) →
       cacheOk (c7St.get_all c7Fs).2 c7Fs)) :=
  ⟨by decide, by decide,
   c9_cache_dir_invariant c7St WasmProviderState.new c7Fs (by decide) (by decide)⟩

/-- Counterexample for C9 as stated: starting from a well-formed
filesystem and an invariant-satisfying manager, `get_all` over the
mismatched plugin directory `/data/a` (manifest name `b`) leaves the
key `b` in the cache although `/data/b` is not a directory. -/
theorem c9_counterexample :
    c1Fs.Wf ∧ cacheOk c7St c1Fs ∧
    (c7St.get_all c1Fs).1.isOk = true ∧
    c1St1.plugin_cache.lookup "b" = some c1Cfg ∧
    c1Fs.isDirAt (c1St1.project_data_path ++ ["b"]) = false :=
  ⟨by decide, by decide, rfl, rfl, rfl⟩

/-! ## Helper lemmas: counting the lenient scan (C8) -/

/-- The manifest names the scan accepts, one per valid subdirectory of
the data root, in scan order. -/
def validPluginNames (fs : FS) (root : FsPath) : List String :=
  (fs.childNames root).filterMap (validName fs root)

lemma fold_len_mono (fs : FS) (root : FsPath) (children : List String) :
    ∀ (m : List (String × PluginConfigData)) (errs : List String),
    m.length ≤ ((children.foldl (loadAllStep fs root) (m, errs)).1).length := by
  induction children with
  | nil => intro m errs; exact le_refl _
  | cons c cs ih =>
    intro m errs
    rw [List.foldl_cons]
    cases hdc : fs.isDirAt (root ++ [c]) with
    | false =>
      rw [show loadAllStep fs root (m, errs) c = (m, errs) from by simp [loadAllStep, hdc]]
      exact ih m errs
    | true =>
      cases hl : load_plugin_config fs (root ++ [c]) with
      | error e =>
        rw [show loadAllStep fs root (m, errs) c =
            (m, errs ++ [c ++ ": " ++ configErrorToString e]) from by
          simp [loadAllStep, hdc, hl]]
        exact ih m _
      | ok cfg =>
        rw [show loadAllStep fs root (m, errs) c = (insertReplace m cfg.name cfg, errs) from by
          simp [loadAllStep, hdc, hl]]
        exact le_trans (insertReplace_length_ge m cfg.name cfg) (ih _ errs)

lemma fold_nonempty (fs : FS) (root : FsPath) (children : List String) :
    ∀ (m : List (String × PluginConfigData)) (errs : List String) (c : String),
    c ∈ children → (validName fs root c).isSome = true →
    ((children.foldl (loadAllStep fs root) (m, errs)).1) ≠ [] := by
  induction children with
  | nil => intro m errs c hc _; cases hc
  | cons c0 cs ih =>
    intro m errs c hc hv
    rw [List.foldl_cons]
    rcases List.mem_cons.mp hc with rfl | hc2
    · cases hdc : fs.isDirAt (root ++ [c]) with
      | false => simp [validName, hdc] at hv
      | true =>
        cases hl : load_plugin_config fs (root ++ [c]) with
        | error e => simp [validName, hdc, hl] at hv
        | ok cfg =>
          rw [show loadAllStep fs root (m, errs) c = (insertReplace m cfg.name cfg, errs) from by
            simp [loadAllStep, hdc, hl]]
          have h1 : 0 < (insertReplace m cfg.name cfg).length :=
            List.length_pos.mpr (insertReplace_ne_nil m cfg.name cfg)
          have h2 := fold_len_mono fs root cs (insertReplace m cfg.name cfg) errs
          intro hnil
          rw [hnil] at h2
          simp only [List.length_nil, Nat.le_zero] at h2
          omega
    · rcases hacc : loadAllStep fs root (m, errs) c0 with ⟨m2, e2⟩
      exact ih m2 e2 c hc2 hv

lemma fold_keys (fs : FS) (root : FsPath) (children : List String) :
    ∀ (m : List (String × PluginConfigData)) (errs : List String),
    (m.map Prod.fst ++ children.filterMap (validName fs root)).Nodup →
    ((children.foldl (loadAllStep fs root) (m, errs)).1).map Prod.fst =
      m.map Prod.fst ++ children.filterMap (validName fs root) := by
  induction children with
  | nil => intro m errs _; simp
  | cons c cs ih =>
    intro m errs h
    rw [List.foldl_cons]
    cases hdc : fs.isDirAt (root ++ [c]) with
    | false =>
      have hvn : validName fs root c = none := by simp [validName, hdc]
      rw [show loadAllStep fs root (m, errs) c = (m, errs) from by simp [loadAllStep, hdc]]
      rw [List.filterMap_cons_none hvn] at h ⊢
      exact ih m errs h
    | true =>
      cases hl : load_plugin_config fs (root ++ [c]) with
      | error e =>
        have hvn : validName fs root c = none := by simp [validName, hdc, hl]
        rw [show loadAllStep fs root (m, errs) c =
            (m, errs ++ [c ++ ": " ++ configErrorToString e]) from by
          simp [loadAllStep, hdc, hl]]
        rw [List.filterMap_cons_none hvn] at h ⊢
        exact ih m _ h
      | ok cfg =>
        have hvn : validName fs root c = some cfg.name := by simp [validName, hdc, hl]
        rw [show loadAllStep fs root (m, errs) c = (insertReplace m cfg.name cfg, errs) from by
          simp [loadAllStep, hdc, hl]]
        rw [List.filterMap_cons_some hvn] at h ⊢
        have hnotmem : cfg.name ∉ m.map Prod.fst := by
          intro hmem
          rw [List.nodup_append] at h
          exact h.2.2 hmem (List.mem_cons_self _ _)
        have hlkp : m.lookup cfg.name = none := lookup_eq_none_of_not_mem hnotmem
        have hkeys : (insertReplace m cfg.name cfg).map Prod.fst =
            m.map Prod.fst ++ [cfg.name] := insertReplace_keys_of_none cfg hlkp
        have hre : m.map Prod.fst ++ cfg.name :: cs.filterMap (validName fs root) =
            (m.map Prod.fst ++ [cfg.name]) ++ cs.filterMap (validName fs root) := by
          rw [List.append_assoc, List.singleton_append]
        rw [hre] at h ⊢
        rw [← hkeys] at h ⊢
        exact ih _ errs h

lemma load_all_ok_of_nonempty {fs : FS} {root : FsPath}
    (hroot : fs.pathExists root = true)
    (hne : ((fs.childNames root).foldl (loadAllStep fs root) ([], [])).1 ≠ []) :
    load_all_plugins fs root =
      .ok ((fs.childNames root).foldl (loadAllStep fs root) ([], [])).1 := by
  unfold load_all_plugins
  rw [if_neg (by simp [hroot])]
  rcases hfold : (fs.childNames root).foldl (loadAllStep fs root) ([], []) with ⟨s1, s2⟩
  rw [hfold] at hne
  have hs1 : s1.isEmpty = false := by
    cases s1 with
    | nil => exact absurd rfl hne
    | cons a t => rfl
  simp [hs1]

/-- Claim C8 (amended): over a data root that exists, with N ≥ 1
subdirectories holding valid manifests with pairwise-distinct names and
any number of invalid subdirectories, `get_all` succeeds with exactly N
entries and replaces the cache with exactly those N keys; and for every
manager and filesystem, `get_all` fails only when the data root does
not exist or no plugin loaded at all.  Without the distinctness proviso
duplicate manifest names collapse (last-write-wins; see the
counterexample). -/
theorem c8_get_all_discovery
    (st : PluginManager) (fs : FS)
    (hroot : fs.pathExists st.project_data_path = true)
    (hnodup : (validPluginNames fs st.project_data_path).Nodup)
    (hsome : validPluginNames fs st.project_data_path ≠ []) :
    (∃ infos st1, st.get_all fs = (.ok infos, st1) ∧
      infos.length = (validPluginNames fs st.project_data_path).length ∧
      st1.plugin_cache.map Prod.fst = validPluginNames fs st.project_data_path ∧
      st1.plugin_cache.length = (validPluginNames fs st.project_data_path).length) ∧
    (∀ (st2 : PluginManager) (fs2 : FS),
      (st2.get_all fs2).1.isOk = false →
      fs2.pathExists st2.project_data_path = false ∨
      validPluginNames fs2 st2.project_data_path = []) := by
  constructor
  · have hkeys := fold_keys fs st.project_data_path (fs.childNames st.project_data_path) [] []
      (by simpa using hnodup)
    rw [List.map_nil, List.nil_append] at hkeys
    have hne : ((fs.childNames st.project_data_path).foldl
        (loadAllStep fs st.project_data_path) ([], [])).1 ≠ [] := by
      intro h0
      rw [h0] at hkeys
      simp only [List.map_nil] at hkeys
      exact hsome hkeys.symm
    have hall := load_all_ok_of_nonempty hroot hne
    have hlen : ((fs.childNames st.project_data_path).foldl
        (loadAllStep fs st.project_data_path) ([], [])).1.length =
        (validPluginNames fs st.project_data_path).length := by
      have := congrArg List.length hkeys
      rwa [List.length_map] at this
    refine ⟨((fs.childNames st.project_data_path).foldl
        (loadAllStep fs st.project_data_path) ([], [])).1.map
          (fun pr => { config := pr.2, path := st.project_data_path ++ [pr.1] }),
      { st with plugin_cache := ((fs.childNames st.project_data_path).foldl
          (loadAllStep fs st.project_data_path) ([], [])).1 },
      by simp [PluginManager.get_all, hall], ?_, hkeys, hlen⟩
    rw [List.length_map]
    exact hlen
  · intro st2 fs2 hfail
    by_cases hroot2 : fs2.pathExists st2.project_data_path = false
    · exact Or.inl hroot2
    · have hroot2t : fs2.pathExists st2.project_data_path = true := by
        cases hx : fs2.pathExists st2.project_data_path
        · exact absurd hx hroot2
        · rfl
      by_cases hvp : validPluginNames fs2 st2.project_data_path = []
      · exact Or.inr hvp
      · exfalso
        obtain ⟨nm, hnm⟩ := List.exists_mem_of_ne_nil _ hvp
        obtain ⟨c, hc, hvn⟩ := List.mem_filterMap.mp hnm
        have hfold_ne := fold_nonempty fs2 st2.project_data_path
          (fs2.childNames st2.project_data_path) [] [] c hc (by rw [hvn]; rfl)
        have hall2 := load_all_ok_of_nonempty hroot2t hfold_ne
        rw [show (st2.get_all fs2).1 = .ok (((fs2.childNames st2.project_data_path).foldl
            (loadAllStep fs2 st2.project_data_path) ([], [])).1.map fun pr =>
              { config := pr.2, path := st2.project_data_path ++ [pr.1] }) from by
          simp [PluginManager.get_all, hall2]] at hfail
        simp [Except.isOk, Except.toBool] at hfail

/-- Manifest for the C8 witness. -/
def c8GoodCfg : PluginConfigData := ⟨"good", "1.0.0", "a plugin", "an author", []⟩

/-- C8 witness filesystem (spec scenario S6): a valid plugin `good`, a
subdirectory with a malformed manifest, and one with no manifest. -/
def c8WitFs : FS :=
  ⟨[([], .dir), (["data"], .dir),
    (["data", "good"], .dir),
    (["data", "good", "plugin.json"], .file (.manifest c8GoodCfg)),
    (["data", "bad"], .dir),
    (["data", "bad", "plugin.json"], .file (.invalidManifest "malformed JSON")),
    (["data", "empty"], .dir)]⟩

/-- Witness for C8 at one valid and two invalid subdirectories. -/
theorem c8_witness :
    c8WitFs.pathExists c7St.project_data_path = true ∧
    (validPluginNames c8WitFs c7St.project_data_path).Nodup ∧
    validPluginNames c8WitFs c7St.project_data_path ≠ [] ∧
    ((∃ infos st1, c7St.get_all c8WitFs = (.ok infos, st1) ∧
      infos.length = (validPluginNames c8WitFs c7St.project_data_path).length ∧
      st1.plugin_cache.map Prod.fst = validPluginNames c8WitFs c7St.project_data_path ∧
      st1.plugin_cache.length = (validPluginNames c8WitFs c7St.project_data_path).length) ∧
     (∀ (st2 : PluginManager) (fs2 : FS),
      (st2.get_all fs2).1.isOk = false →
      fs2.pathExists st2.project_data_path = false ∨
      validPluginNames fs2 st2.project_data_path = [])) :=
  ⟨rfl, by decide, by decide,
   c8_get_all_discovery c7St c8WitFs rfl (by decide) (by decide)⟩

/-- Manifest named `a`, used by two different directories below. -/
def c8Cfg : PluginConfigData := ⟨"a", "1.0.0", "a plugin", "an author", []⟩

/-- Two valid subdirectories `/data/a` and `/data/b` whose manifests
share the name `a`. -/
def c8DupFs : FS :=
  ⟨[([], .dir), (["data"], .dir),
    (["data", "a"], .dir), (["data", "a", "plugin.json"], .file (.manifest c8Cfg)),
    (["data", "b"], .dir), (["data", "b", "plugin.json"], .file (.manifest c8Cfg))]⟩

/-- Counterexample for C8 as stated: N = 2 subdirectories with valid
manifests, but `get_all` returns one entry and one cache key
(last-write-wins on the duplicate manifest name). -/
theorem c8_counterexample :
    validPluginNames c8DupFs ["data"] = ["a", "a"] ∧
    c7St.project_data_path = ["data"] ∧
    (c7St.get_all c8DupFs).1 = .ok [{ config := c8Cfg, path := ["data", "a"] }] ∧
    (c7St.get_all c8DupFs).2.plugin_cache.length = 1 :=
  ⟨rfl, rfl, rfl, rfl⟩

end Bud
